import Mathlib

/-!
Verification development for the chub audio-player daemon.

The playback engine (`player/playingthread.go`), the playlist registry
(`player/player.go`), the client session layer (`server` package) and the
cue-sheet parser (`cue` package) are shallowly embedded below.  Stateful
Go code is modelled by pure functions on explicit state records; the side
effects the engine performs on its `Decoder` and `Output` collaborators
are recorded in an explicit effect trace; a Go `panic` (including a nil
interface method call) is modelled by an `ok = false` outcome.
-/

namespace Chub

namespace Engine

/-- A playlist entry as consumed by the playing thread.  `id` models the
object identity (the address of the `*Track`): two entries denote the same
Go object exactly when their `id`s agree.  `file` is `Path.File()`,
`ext` is `Path.Ext()`, `start`/`endT` the `Start`/`End` sub-segment
offsets and `part` the `Part` flag. -/
structure Track where
  id : Nat
  file : String
  ext : String
  start : Int
  endT : Int
  part : Bool
deriving DecidableEq

/-- Playback state of the playing thread (`stateStopped`, `statePlaying`,
`statePaused`). -/
inductive PState
  | stopped
  | playing
  | paused
deriving DecidableEq

/-- Side effects the playing thread performs on its decoder, output and
buffer-availability checker, in program order. -/
inductive Eff
  | stopChecker
  | startChecker
  | decoderClose
  | decoderOpen (file : String)
  | seek (t : Int)
  | outputOpen
  | outputReset
  | outputClose
  | outputPause
  | setRate (r : Int)
  | setChannels (c : Int)
  | write (n : Nat)
deriving DecidableEq

/-- The mutable fields of `playingThread`.  `decoders` is the set of file
extensions for which the `decoders` map holds a factory; `decoder` holds
the file the currently open decoder was opened for (`none` models the nil
interface value). -/
structure PT where
  decoders : List String
  plist : List Track
  pos : Int
  state : PState
  decoder : Option String
deriving DecidableEq

/-- Environment answers of the external `Decoder`/`Output` collaborators
consulted during one operation: whether `Decoder.Open` succeeds for a
file, `Output.IsOpen`, the output and decoder sample rates and channel
counts, the decoder `Time()`, and the byte count a `Read` would return. -/
structure Env where
  openOk : String → Bool
  outIsOpen : Bool
  osr : Int
  och : Int
  dsr : Int
  dch : Int
  decTime : Int
  readN : Nat

/-- Result of one engine operation: the updated thread state, the effect
trace, and whether the operation ran to completion (`ok = false` models a
Go panic, after which the already-performed mutations persist). -/
structure PlayRes where
  pt : PT
  effs : List Eff
  ok : Bool
deriving DecidableEq

/-- Embedding of `pt.plist.Get(i)`: `none` models the out-of-range (or nil-list) panic. -/
def getTrack (l : List Track) (i : Int) : Option Track :=
  if i < 0 then none else l[i.toNat]?

/-- The position normalisation at the top of `playingThread.play`
(lines 186-190): a negative position becomes the last index, a position
`≥ len` becomes `0`. -/
def wrapPos (len : Nat) (pos : Int) : Int :=
  if pos < 0 then (len : Int) - 1
  else if pos ≥ (len : Int) then 0
  else pos

/-- The tail of `playingThread.play` from the `track.Part` seek decision
on (lines 230-255): output open/reset/reconfigure and the commit of
`pos`/`state`.  `dec` is the decoder in effect after the decoder phase;
`Seek`, `decoder.SampleRate()` and `decoder.Channels()` on a nil decoder
panic. -/
def playFinish (env : Env) (pt : PT) (pos : Int) (smooth : Bool) (track : Track)
    (sameFile upcoming : Bool) (dec : Option String) (effs : List Eff) : PlayRes :=
  let needSeek := track.part && (!sameFile || !upcoming)
  if needSeek && dec.isNone then
    ⟨pt, effs, false⟩
  else
    let effs := if needSeek then effs ++ [Eff.seek track.start] else effs
    let effs := if !env.outIsOpen then effs ++ [Eff.outputOpen] else effs
    let effs := if !smooth then effs ++ [Eff.outputReset] else effs
    match dec with
    | none => ⟨pt, effs, false⟩
    | some _ =>
      let effs :=
        if env.osr ≠ env.dsr ∨ env.och ≠ env.dch then
          effs ++ [Eff.setRate env.dsr, Eff.setChannels env.dch]
        else effs
      ⟨{ pt with pos := pos, state := PState.playing, decoder := dec },
        effs ++ [Eff.startChecker], true⟩

/-- The decoder phase of `playingThread.play` (lines 205-229) followed by
`playFinish`.  When the target is in a different file: close the current
decoder if playing; a missing factory or a failed `Open` closes the
(old) decoder again, marks the state `Stopped` and panics
(`panic("TODO:")`); closing a nil decoder itself panics. -/
def playCore (env : Env) (pt : PT) (pos : Int) (smooth : Bool) (track : Track)
    (sameFile upcoming : Bool) (effs : List Eff) : PlayRes :=
  if sameFile then
    playFinish env pt pos smooth track sameFile upcoming pt.decoder effs
  else
    let effs := if pt.state = PState.playing then effs ++ [Eff.decoderClose] else effs
    if track.ext ∈ pt.decoders then
      let effs := effs ++ [Eff.decoderOpen track.file]
      if env.openOk track.file then
        playFinish env pt pos smooth track sameFile upcoming (some track.file) effs
      else
        match pt.decoder with
        | none => ⟨pt, effs, false⟩
        | some _ => ⟨{ pt with state := PState.stopped }, effs ++ [Eff.decoderClose], false⟩
    else
      match pt.decoder with
      | none => ⟨pt, effs, false⟩
      | some _ => ⟨{ pt with state := PState.stopped }, effs ++ [Eff.decoderClose], false⟩

/-- Embedding of `playingThread.play` (lines 185-255).  In every state
other than `Stopped` the entry calls `stopBufAvailableChecker`
(line 192).  In the `Playing` state that is the sound shutdown
handshake with the running checker (effect `stopChecker`); in the
`Paused` state the `bufAvailable` channel was already handshaken and
closed by the pause transition (lines 130, 292-293), so the send on the
closed channel panics at once, before any `Get`, decoder, seek or
output work. -/
def play (env : Env) (pt : PT) (pos0 : Int) (smooth : Bool) : PlayRes :=
  let pos := wrapPos pt.plist.length pos0
  match pt.state with
  | PState.paused => ⟨pt, [], false⟩
  | PState.playing =>
    match getTrack pt.plist pos with
    | none => ⟨pt, [Eff.stopChecker], false⟩
    | some track =>
      match getTrack pt.plist pt.pos with
      | none => ⟨pt, [Eff.stopChecker], false⟩
      | some cur =>
        playCore env pt pos smooth track (cur.file == track.file)
          (cur.endT == track.start) [Eff.stopChecker]
  | PState.stopped =>
    match getTrack pt.plist pos with
    | none => ⟨pt, [], false⟩
    | some track => playCore env pt pos smooth track false false []

/-- Embedding of `playingThread.stop` (lines 257-266): a no-op when already stopped.
From `Playing` it stops the checker, closes output and decoder (a nil
decoder close panics before the fields are cleared) and clears list and
position.  From `Paused` the `stopBufAvailableChecker` call (line 259)
sends on the `bufAvailable` channel that the pause transition already
closed, a panic before any close or field mutation. -/
def stop (pt : PT) : PlayRes :=
  match pt.state with
  | PState.stopped => ⟨pt, [], true⟩
  | PState.paused => ⟨pt, [], false⟩
  | PState.playing =>
    match pt.decoder with
    | none => ⟨pt, [Eff.stopChecker, Eff.outputClose], false⟩
    | some _ =>
      ⟨{ pt with plist := [], pos := -1, state := PState.stopped },
        [Eff.stopChecker, Eff.outputClose, Eff.decoderClose], true⟩

/-- The scan of `playingThread.setPlaylist` (lines 273-280): the first
index holding the pointer-identical track, or `-1`. -/
def findTrackFrom (i : Int) (l : List Track) (cur : Track) : Int :=
  match l with
  | [] => -1
  | t :: ts => if t.id = cur.id then i else findTrackFrom (i + 1) ts cur

/-- Embedding of `playingThread.setPlaylist` (lines 268-284).  `none` models the panic
of `pt.plist.Get(pt.pos)` on an invalid current position. -/
def setPlaylist (pt : PT) (l : List Track) : Option PT :=
  if pt.state ≠ PState.stopped then
    (getTrack pt.plist pt.pos).map fun cur =>
      { pt with pos := findTrackFrom 0 l cur, plist := l }
  else some { pt with plist := l }

/-- One inbound message of the playing thread's channel. -/
inductive Msg
  | mplay (l : List Track) (pos : Int)
  | mplist (l : List Track)
  | mnext
  | mprev
  | mstop
  | mpause
  | mclose

/-- The command dispatch of `playingThread.loop` (lines 113-150). -/
def step (env : Env) (pt : PT) : Msg → PlayRes
  | Msg.mplist l =>
    match setPlaylist pt l with
    | none => ⟨pt, [], false⟩
    | some pt1 => if pt1.pos = -1 then stop pt1 else ⟨pt1, [], true⟩
  | Msg.mplay l pos =>
    match setPlaylist pt l with
    | none => ⟨pt, [], false⟩
    | some pt1 => play env pt1 pos false
  | Msg.mnext => play env pt (pt.pos + 1) false
  | Msg.mprev => play env pt (pt.pos - 1) false
  | Msg.mstop => stop pt
  | Msg.mclose => stop pt
  | Msg.mpause =>
    match pt.state with
    | PState.playing =>
      ⟨{ pt with state := PState.paused }, [Eff.stopChecker, Eff.outputPause], true⟩
    | PState.paused =>
      ⟨{ pt with state := PState.playing }, [Eff.startChecker, Eff.outputPause], true⟩
    | PState.stopped => ⟨pt, [], true⟩

/-- The per-tick decode/write step of `playingThread.loop`
(lines 156-179), executed while `Playing`: a sub-segment whose decoder
time reached its `End`, or a zero-byte read, triggers the natural
(smooth) advance to `pos+1`; otherwise the read bytes are written out.
`decoder.Time()`/`Read` on a nil decoder panic. -/
def tick (env : Env) (pt : PT) : PlayRes :=
  if pt.state = PState.playing then
    match getTrack pt.plist pt.pos with
    | none => ⟨pt, [], false⟩
    | some cur =>
      if cur.part && pt.decoder.isNone then ⟨pt, [], false⟩
      else if !cur.part || decide (env.decTime < cur.endT) then
        match pt.decoder with
        | none => ⟨pt, [], false⟩
        | some _ =>
          if env.readN = 0 then play env pt (pt.pos + 1) true
          else ⟨pt, [Eff.write env.readN], true⟩
      else play env pt (pt.pos + 1) true
  else ⟨pt, [], true⟩

end Engine

end Chub

namespace Chub

namespace Engine

/-- Claim C1 counterexample: the position normalisation of
`playingThread.play` is not reduction modulo the list length for every
out-of-range position: on a 5-track list, `pos = -2` is mapped to `4`,
while `-2 mod 5 = 3`. -/
theorem C1_counterexample :
    wrapPos 5 (-2) = 4 ∧ (-2 : Int) % 5 = 3 ∧ wrapPos 5 (-2) ≠ (-2 : Int) % 5 := by
  decide

/-- Claim C1 (amended): for a nonempty list, every position in the range
`[-1, len]` — which covers all in-range positions together with the
`pos ± 1` targets produced by Next and Prev from an in-range position —
is normalised by `playingThread.play` to its value modulo the list
length; in particular `-1` resolves to the last index and `len` resolves
to `0`.  (Positions below `-1` are clamped to the last index and
positions above `len` to `0`, not reduced modulo the length.) -/
theorem C1_wrap (len : Nat) (pos : Int) (h0 : 0 < len) (h1 : -1 ≤ pos)
    (h2 : pos ≤ (len : Int)) :
    wrapPos len pos = pos % (len : Int) ∧
      wrapPos len (-1) = (len : Int) - 1 ∧ wrapPos len ((len : Int)) = 0 := by
  have hlen : (0 : Int) < (len : Int) := by exact_mod_cast h0
  refine ⟨?_, ?_, ?_⟩
  · unfold wrapPos
    by_cases hneg : pos < 0
    · have hpos : pos = -1 := le_antisymm (by omega) h1
      subst hpos
      simp only [if_pos hneg]
      have h3 : (-1 : Int) % (len : Int) = ((len : Int) - 1) % (len : Int) := by
        conv_rhs => rw [show ((len : Int) - 1) = -1 + (len : Int) * 1 by ring]
        rw [Int.add_mul_emod_self_left]
      rw [h3, Int.emod_eq_of_lt (by omega) (by omega)]
    · by_cases hge : pos ≥ (len : Int)
      · have hpos : pos = (len : Int) := le_antisymm h2 hge
        subst hpos
        simp only [if_neg hneg, if_pos hge, Int.emod_self]
      · simp only [if_neg hneg, if_neg hge]
        rw [Int.emod_eq_of_lt (by omega) (by omega)]
  · unfold wrapPos
    simp only [if_pos (by omega : (-1 : Int) < 0)]
  · unfold wrapPos
    rw [if_neg (by omega), if_pos (le_refl _)]

/-- Claim C1 witness at `len = 5`, `pos = -1`. -/
theorem C1_wrap_witness :
    wrapPos 5 (-1) = (-1 : Int) % 5 ∧ wrapPos 5 (-1) = 4 ∧ wrapPos 5 5 = 0 := by
  have h := C1_wrap 5 (-1) (by decide) (by decide) (by decide)
  exact ⟨h.1, by decide, by decide⟩

end Engine

end Chub

namespace Chub

namespace Engine

/-- Claim C9: `Stop` in the `Stopped` state is a complete no-op (no
effects, all fields unchanged), and hence stop is idempotent: after any
completed stop a second stop leaves the state untouched and performs no
`Output.Close` or `Decoder.Close`. -/
theorem C9_stop_idempotent (pt : PT) :
    (pt.state = PState.stopped → stop pt = ⟨pt, [], true⟩) ∧
    ((stop pt).ok = true → stop (stop pt).pt = ⟨(stop pt).pt, [], true⟩) := by
  have hstopped : ∀ q : PT, q.state = PState.stopped → stop q = ⟨q, [], true⟩ := by
    intro q hq
    unfold stop
    rw [hq]
  refine ⟨hstopped pt, ?_⟩
  intro hok
  cases hs : pt.state with
  | stopped =>
    rw [hstopped pt hs]
    exact hstopped pt hs
  | paused =>
    exfalso
    unfold stop at hok
    rw [hs] at hok
    simp at hok
  | playing =>
    rcases hd : pt.decoder with _ | d
    · exfalso
      unfold stop at hok
      rw [hs, hd] at hok
      simp at hok
    · have hres : stop pt = ⟨{ pt with plist := [], pos := -1, state := PState.stopped },
          [Eff.stopChecker, Eff.outputClose, Eff.decoderClose], true⟩ := by
        unfold stop
        rw [hs, hd]
      rw [hres]
      exact hstopped _ rfl

/-- Claim C9 witness: a stopped thread is left untouched, and a second
stop after stopping a playing thread is a no-op. -/
theorem C9_stop_idempotent_witness :
    stop (⟨["mp3"], [], -1, PState.stopped, none⟩ : PT)
        = ⟨⟨["mp3"], [], -1, PState.stopped, none⟩, [], true⟩ ∧
      stop (stop (⟨["mp3"], [], 0, PState.playing, some "a.mp3"⟩ : PT)).pt
        = ⟨(stop (⟨["mp3"], [], 0, PState.playing, some "a.mp3"⟩ : PT)).pt, [], true⟩ := by
  refine ⟨(C9_stop_idempotent ⟨["mp3"], [], -1, PState.stopped, none⟩).1 rfl, ?_⟩
  exact (C9_stop_idempotent ⟨["mp3"], [], 0, PState.playing, some "a.mp3"⟩).2 (by decide)

/-- Recogniser for the `Output.Reset` effect. -/
def isReset : Eff → Bool
  | Eff.outputReset => true
  | _ => false

/-- Number of `Output.Reset` calls recorded in an effect trace. -/
def countReset (l : List Eff) : Nat := (l.filter isReset).length

theorem countReset_append (a b : List Eff) :
    countReset (a ++ b) = countReset a + countReset b := by
  unfold countReset
  rw [List.filter_append, List.length_append]


theorem countReset_nil : countReset [] = 0 := rfl

theorem countReset_cons (e : Eff) (l : List Eff) :
    countReset (e :: l) = (if isReset e then 1 else 0) + countReset l := by
  unfold countReset
  rw [List.filter_cons]
  split <;> simp [Nat.add_comm]

theorem countReset_base (b : Prop) [Decidable b] :
    countReset (if b then [Eff.stopChecker] else []) = 0 := by
  split <;> simp [countReset, isReset]

/-- A completed `playFinish` requires a non-nil decoder. -/
theorem playFinish_ok_isSome (env : Env) (pt : PT) (pos : Int) (smooth : Bool)
    (track : Track) (sf up : Bool) (dec : Option String) (effs : List Eff)
    (h : (playFinish env pt pos smooth track sf up dec effs).ok = true) :
    dec.isNone = false := by
  cases dec
  · exfalso
    by_cases hseek : (track.part && (!sf || !up)) = true <;>
      by_cases ho : env.outIsOpen = true <;>
        simp [playFinish, hseek, ho] at h
  · simp

/-- Reset contribution of `playFinish`: one `Output.Reset` exactly when
the nil-decoder seek panic is not taken and the transition is not
smooth. -/
theorem countReset_playFinish (env : Env) (pt : PT) (pos : Int) (smooth : Bool)
    (track : Track) (sf up : Bool) (dec : Option String) (effs : List Eff) :
    countReset (playFinish env pt pos smooth track sf up dec effs).effs
      = countReset effs
        + (if ((track.part && (!sf || !up)) && dec.isNone) = true then 0
           else if smooth = true then 0 else 1) := by
  cases dec <;> cases smooth <;>
    by_cases hseek : (track.part && (!sf || !up)) = true <;>
      by_cases ho : env.outIsOpen = true <;>
        by_cases hr : env.osr ≠ env.dsr ∨ env.och ≠ env.dch <;>
          simp [playFinish, hseek, ho, hr, countReset_append, countReset, isReset]

theorem countReset_playCore_true (env : Env) (pt : PT) (pos : Int) (track : Track)
    (sf up : Bool) (effs : List Eff) :
    countReset (playCore env pt pos true track sf up effs).effs = countReset effs := by
  by_cases hsf : sf = true <;>
    by_cases hst : pt.state = PState.playing <;>
      by_cases hext : track.ext ∈ pt.decoders <;>
        by_cases hop : env.openOk track.file = true <;>
          cases hdec : pt.decoder <;>
            simp [playCore, hsf, hst, hext, hop, hdec, countReset_playFinish,
              countReset_append, countReset_cons, countReset_nil, isReset]

theorem countReset_playCore_false (env : Env) (pt : PT) (pos : Int) (track : Track)
    (sf up : Bool) (effs : List Eff)
    (h : (playCore env pt pos false track sf up effs).ok = true) :
    countReset (playCore env pt pos false track sf up effs).effs = countReset effs + 1 := by
  by_cases hsf : sf = true
  · simp only [playCore, hsf, if_true] at h ⊢
    have hds := playFinish_ok_isSome _ _ _ _ _ _ _ _ _ h
    simp [countReset_playFinish, hds]
  · simp only [playCore, hsf, Bool.false_eq_true, if_false] at h ⊢
    by_cases hext : track.ext ∈ pt.decoders
    · by_cases hop : env.openOk track.file = true
      · simp only [hext, if_true, hop] at h ⊢
        by_cases hst : pt.state = PState.playing <;>
          simp [hst, countReset_playFinish, countReset_append, countReset_cons,
            countReset_nil, isReset]
      · exfalso
        cases hdec : pt.decoder <;>
          by_cases hst : pt.state = PState.playing <;>
            simp [hext, hop, hdec, hst] at h
    · exfalso
      cases hdec : pt.decoder <;>
        by_cases hst : pt.state = PState.playing <;>
          simp [hext, hdec, hst] at h

/-- Unfolding of `play` when the thread is playing with a valid current
track and a valid target. -/
theorem play_eq_playing (env : Env) (pt : PT) (pos0 : Int) (smooth : Bool)
    (track cur : Track) (hst : pt.state = PState.playing)
    (hg : getTrack pt.plist (wrapPos pt.plist.length pos0) = some track)
    (hc : getTrack pt.plist pt.pos = some cur) :
    play env pt pos0 smooth
      = playCore env pt (wrapPos pt.plist.length pos0) smooth track
          (cur.file == track.file) (cur.endT == track.start) [Eff.stopChecker] := by
  simp [play, hst, hg, hc]

/-- Unfolding of `play` when the thread is paused: the shutdown
handshake with the already-stopped checker sends on the closed
`bufAvailable` channel and panics before any decoder, seek or output
work. -/
theorem play_paused (env : Env) (pt : PT) (pos0 : Int) (smooth : Bool)
    (hst : pt.state = PState.paused) :
    play env pt pos0 smooth = ⟨pt, [], false⟩ := by
  simp [play, hst]

/-- Unfolding of `play` when the thread is stopped with a valid target. -/
theorem play_eq_stopped (env : Env) (pt : PT) (pos0 : Int) (smooth : Bool)
    (track : Track) (hst : pt.state = PState.stopped)
    (hg : getTrack pt.plist (wrapPos pt.plist.length pos0) = some track) :
    play env pt pos0 smooth
      = playCore env pt (wrapPos pt.plist.length pos0) smooth track false false [] := by
  simp [play, hst, hg]

theorem countReset_play_true (env : Env) (pt : PT) (pos0 : Int) :
    countReset (play env pt pos0 true).effs = 0 := by
  cases hst : pt.state with
  | paused =>
    rw [play_paused env pt pos0 true hst]
    rfl
  | stopped =>
    rcases hg : getTrack pt.plist (wrapPos pt.plist.length pos0) with _ | track
    · simp [play, hst, hg, countReset_nil]
    · rw [play_eq_stopped env pt pos0 true track hst hg, countReset_playCore_true]
      rfl
  | playing =>
    rcases hg : getTrack pt.plist (wrapPos pt.plist.length pos0) with _ | track
    · simp [play, hst, hg, countReset_cons, countReset_nil, isReset]
    · rcases hc : getTrack pt.plist pt.pos with _ | cur
      · simp [play, hst, hg, hc, countReset_cons, countReset_nil, isReset]
      · rw [play_eq_playing env pt pos0 true track cur hst hg hc, countReset_playCore_true]
        rfl

theorem countReset_play_false (env : Env) (pt : PT) (pos0 : Int)
    (h : (play env pt pos0 false).ok = true) :
    countReset (play env pt pos0 false).effs = 1 := by
  cases hst : pt.state with
  | paused =>
    exfalso
    rw [play_paused env pt pos0 false hst] at h
    simp at h
  | stopped =>
    rcases hg : getTrack pt.plist (wrapPos pt.plist.length pos0) with _ | track
    · exfalso
      simp [play, hst, hg] at h
    · rw [play_eq_stopped env pt pos0 false track hst hg] at h ⊢
      rw [countReset_playCore_false _ _ _ _ _ _ _ h]
      rfl
  | playing =>
    rcases hg : getTrack pt.plist (wrapPos pt.plist.length pos0) with _ | track
    · exfalso
      simp [play, hst, hg] at h
    · rcases hc : getTrack pt.plist pt.pos with _ | cur
      · exfalso
        simp [play, hst, hg, hc] at h
      · rw [play_eq_playing env pt pos0 false track cur hst hg hc] at h ⊢
        rw [countReset_playCore_false _ _ _ _ _ _ _ h]
        rfl

/-- Claim C4: every transition triggered by an explicit `Play`, `Next` or
`Prev` command that runs to completion records exactly one
`Output.Reset` (issued before the commit of position and state), and the
per-tick step — in particular a natural end-of-track advance after a
zero-byte read — never records an `Output.Reset`. -/
theorem C4_reset_policy (env : Env) (pt : PT) :
    (∀ l pos, (step env pt (Msg.mplay l pos)).ok = true →
        countReset (step env pt (Msg.mplay l pos)).effs = 1) ∧
    ((step env pt Msg.mnext).ok = true →
        countReset (step env pt Msg.mnext).effs = 1) ∧
    ((step env pt Msg.mprev).ok = true →
        countReset (step env pt Msg.mprev).effs = 1) ∧
    countReset (tick env pt).effs = 0 := by
  refine ⟨?_, ?_, ?_, ?_⟩
  · intro l pos h
    simp only [step] at h ⊢
    rcases hsp : setPlaylist pt l with _ | pt1
    · simp only [hsp] at h
      simp at h
    · simp only [hsp] at h ⊢
      exact countReset_play_false _ _ _ h
  · intro h
    exact countReset_play_false _ _ _ h
  · intro h
    exact countReset_play_false _ _ _ h
  · by_cases hst : pt.state = PState.playing
    · rcases hc : getTrack pt.plist pt.pos with _ | cur
      · simp [tick, hst, hc, countReset_nil]
      · by_cases hpart : cur.part = true <;>
          by_cases htime : env.decTime < cur.endT <;>
            cases hdec : pt.decoder <;>
              by_cases hn : env.readN = 0 <;>
                simp [tick, hst, hc, hpart, htime, hdec, hn, countReset_play_true,
                  countReset_cons, countReset_nil, isReset]
    · simp [tick, hst, countReset_nil]

/-- Claim C4 witness: on a one-track playlist an explicit Next command
resets the output exactly once, and a tick that reads zero bytes (the
natural end-of-track advance) performs zero resets. -/
theorem C4_reset_policy_witness :
    countReset (step ⟨fun _ => true, true, 44100, 2, 44100, 2, 0, 0⟩
        ⟨["mp3"], [⟨1, "a.mp3", "mp3", 0, 10, false⟩], 0, PState.playing, some "a.mp3"⟩
        Msg.mnext).effs = 1 ∧
      countReset (tick ⟨fun _ => true, true, 44100, 2, 44100, 2, 0, 0⟩
        ⟨["mp3"], [⟨1, "a.mp3", "mp3", 0, 10, false⟩], 0, PState.playing, some "a.mp3"⟩).effs
        = 0 := by
  have h := C4_reset_policy ⟨fun _ => true, true, 44100, 2, 44100, 2, 0, 0⟩
    ⟨["mp3"], [⟨1, "a.mp3", "mp3", 0, 10, false⟩], 0, PState.playing, some "a.mp3"⟩
  exact ⟨h.2.1 (by decide), h.2.2.2⟩

/-- Claim C2 counterexample: a transition between two contiguous `Part`
tracks of the same file triggered by an explicit Next command resets the
output (the effect trace of the transition is exactly stop-checker,
output-reset, start-checker), contradicting "never resets the Output
buffer regardless of the trigger".  (No seek is issued, as the trace
shows.) -/
theorem C2_counterexample :
    (step ⟨fun _ => true, true, 44100, 2, 44100, 2, 0, 4096⟩
        ⟨["flac"], [⟨1, "disc.flac", "flac", 0, 100, true⟩,
            ⟨2, "disc.flac", "flac", 100, 200, true⟩],
          0, PState.playing, some "disc.flac"⟩
        Msg.mnext).effs
      = [Eff.stopChecker, Eff.outputReset, Eff.startChecker] := by
  decide

/-- Claim C2 (amended): a transition from a playing `Part` track to a
`Part` track of the same physical file whose start offset equals the
outgoing track's end offset never issues a `Decoder.Seek`; it issues no
`Output.Reset` when triggered by the natural end-of-track advance
(`smooth = true`), but an explicit command transition (`smooth = false`)
does reset the output. -/
theorem C2_contiguous_no_seek (env : Env) (pt : PT) (pos0 : Int) (smooth : Bool)
    (track cur : Track) (hst : pt.state = PState.playing)
    (hg : getTrack pt.plist (wrapPos pt.plist.length pos0) = some track)
    (hc : getTrack pt.plist pt.pos = some cur)
    (_hpc : cur.part = true) (hpt : track.part = true)
    (hfile : cur.file = track.file) (hcont : cur.endT = track.start) :
    (∀ t, Eff.seek t ∉ (play env pt pos0 smooth).effs) ∧
      (smooth = true → Eff.outputReset ∉ (play env pt pos0 smooth).effs) ∧
      (smooth = false → Eff.outputReset ∈ (play env pt pos0 smooth).effs) := by
  rw [play_eq_playing env pt pos0 smooth track cur hst hg hc]
  have hsf : (cur.file == track.file) = true := by simp [hfile]
  have hup : (cur.endT == track.start) = true := by simp [hcont]
  rw [hsf, hup]
  simp only [playCore, if_true]
  refine ⟨?_, ?_, ?_⟩
  · intro t
    cases hdec : pt.decoder <;>
      by_cases ho : env.outIsOpen = true <;>
        by_cases hr : env.osr ≠ env.dsr ∨ env.och ≠ env.dch <;>
          cases smooth <;>
            simp [playFinish, hpt, hdec, ho, hr]
  · intro hs
    subst hs
    cases hdec : pt.decoder <;>
      by_cases ho : env.outIsOpen = true <;>
        by_cases hr : env.osr ≠ env.dsr ∨ env.och ≠ env.dch <;>
          simp [playFinish, hpt, hdec, ho, hr]
  · intro hs
    subst hs
    cases hdec : pt.decoder <;>
      by_cases ho : env.outIsOpen = true <;>
        by_cases hr : env.osr ≠ env.dsr ∨ env.och ≠ env.dch <;>
          simp [playFinish, hpt, hdec, ho, hr]

/-- Claim C2 witness: on the same contiguous two-part playlist, the
natural (smooth) advance issues neither a seek nor a reset. -/
theorem C2_contiguous_no_seek_witness :
    Eff.seek 100 ∉ (play ⟨fun _ => true, true, 44100, 2, 44100, 2, 0, 4096⟩
        ⟨["flac"], [⟨1, "disc.flac", "flac", 0, 100, true⟩,
            ⟨2, "disc.flac", "flac", 100, 200, true⟩],
          0, PState.playing, some "disc.flac"⟩ 1 true).effs ∧
      Eff.outputReset ∉ (play ⟨fun _ => true, true, 44100, 2, 44100, 2, 0, 4096⟩
        ⟨["flac"], [⟨1, "disc.flac", "flac", 0, 100, true⟩,
            ⟨2, "disc.flac", "flac", 100, 200, true⟩],
          0, PState.playing, some "disc.flac"⟩ 1 true).effs := by
  have h := C2_contiguous_no_seek ⟨fun _ => true, true, 44100, 2, 44100, 2, 0, 4096⟩
    ⟨["flac"], [⟨1, "disc.flac", "flac", 0, 100, true⟩,
        ⟨2, "disc.flac", "flac", 100, 200, true⟩],
      0, PState.playing, some "disc.flac"⟩ 1 true
    ⟨2, "disc.flac", "flac", 100, 200, true⟩ ⟨1, "disc.flac", "flac", 0, 100, true⟩
    rfl (by decide) (by decide) rfl rfl rfl rfl
  exact ⟨h.1 100, h.2.1 rfl⟩

/-- Claim C3 counterexample: a transition attempted from the `Paused`
state to a track in a different physical file panics at once — the
shutdown handshake sends on the `bufAvailable` channel that the pause
transition already closed — so the old decoder is not closed and no new
decoder is resolved or opened (the effect trace is empty),
contradicting "from any non-Stopped state the old Decoder is closed and
a new Decoder is resolved and opened". -/
theorem C3_counterexample :
    step ⟨fun _ => true, true, 44100, 2, 44100, 2, 0, 4096⟩
        ⟨["mp3"], [⟨1, "a.mp3", "mp3", 0, 10, false⟩, ⟨2, "b.mp3", "mp3", 0, 10, false⟩],
          0, PState.paused, some "a.mp3"⟩
        Msg.mnext
      = ⟨⟨["mp3"], [⟨1, "a.mp3", "mp3", 0, 10, false⟩, ⟨2, "b.mp3", "mp3", 0, 10, false⟩],
          0, PState.paused, some "a.mp3"⟩, [], false⟩ := by
  decide

/-- Claim C3 (amended): a transition to a track in a different physical
file (with a registered factory and a successful open) taken from the
`Playing` state closes the old decoder and resolves and opens a new one
for the new file; a transition attempted from the `Paused` state panics
on the already-closed buffer-availability channel before any decoder
work, so no decoder is closed or opened. -/
theorem C3_diff_file_decoder (env : Env) (pt : PT) (pos0 : Int) (smooth : Bool)
    (track : Track)
    (hg : getTrack pt.plist (wrapPos pt.plist.length pos0) = some track)
    (hext : track.ext ∈ pt.decoders) (hopen : env.openOk track.file = true) :
    (∀ cur, pt.state = PState.playing →
        getTrack pt.plist pt.pos = some cur → cur.file ≠ track.file →
        Eff.decoderClose ∈ (play env pt pos0 smooth).effs ∧
          Eff.decoderOpen track.file ∈ (play env pt pos0 smooth).effs ∧
          (play env pt pos0 smooth).pt.decoder = some track.file ∧
          (play env pt pos0 smooth).ok = true) ∧
      (pt.state = PState.paused →
        play env pt pos0 smooth = ⟨pt, [], false⟩) := by
  constructor
  · intro cur hst hc hfile
    rw [play_eq_playing env pt pos0 smooth track cur hst hg hc]
    have hsf : (cur.file == track.file) = false := by
      simp [hfile]
    rw [hsf]
    simp only [playCore, Bool.false_eq_true, if_false, hst, if_true]
    refine ⟨?_, ?_, ?_, ?_⟩ <;>
      by_cases hpt : track.part = true <;>
        by_cases ho : env.outIsOpen = true <;>
          by_cases hr : env.osr ≠ env.dsr ∨ env.och ≠ env.dch <;>
            cases smooth <;>
              simp [playFinish, hext, hopen, hst, hpt, ho, hr]
  · intro hst
    exact play_paused env pt pos0 smooth hst

/-- Claim C3 witness: from the `Playing` state, the transition to the
other file closes the old decoder and opens a new one for it. -/
theorem C3_diff_file_decoder_witness :
    Eff.decoderClose ∈ (play ⟨fun _ => true, true, 44100, 2, 44100, 2, 0, 4096⟩
        ⟨["mp3"], [⟨1, "a.mp3", "mp3", 0, 10, false⟩, ⟨2, "b.mp3", "mp3", 0, 10, false⟩],
          0, PState.playing, some "a.mp3"⟩ 1 false).effs ∧
      Eff.decoderOpen "b.mp3" ∈ (play ⟨fun _ => true, true, 44100, 2, 44100, 2, 0, 4096⟩
        ⟨["mp3"], [⟨1, "a.mp3", "mp3", 0, 10, false⟩, ⟨2, "b.mp3", "mp3", 0, 10, false⟩],
          0, PState.playing, some "a.mp3"⟩ 1 false).effs := by
  have h := (C3_diff_file_decoder ⟨fun _ => true, true, 44100, 2, 44100, 2, 0, 4096⟩
    ⟨["mp3"], [⟨1, "a.mp3", "mp3", 0, 10, false⟩, ⟨2, "b.mp3", "mp3", 0, 10, false⟩],
      0, PState.playing, some "a.mp3"⟩ 1 false
    ⟨2, "b.mp3", "mp3", 0, 10, false⟩ (by decide) (by decide) rfl).1
    ⟨1, "a.mp3", "mp3", 0, 10, false⟩ rfl (by decide) (by decide)
  exact ⟨h.1, h.2.1⟩

/-- Claim C6 counterexample: when the target track's extension has no
registered decoder factory, the transition is not absorbed: the engine
closes the decoder twice, marks `Stopped`, and panics
(`panic("TODO:")`), so nothing is left for the caller to retry. -/
theorem C6_counterexample :
    play ⟨fun _ => true, true, 44100, 2, 44100, 2, 0, 4096⟩
        ⟨["mp3"], [⟨1, "a.mp3", "mp3", 0, 10, false⟩, ⟨2, "b.xyz", "xyz", 0, 10, false⟩],
          0, PState.playing, some "a.mp3"⟩ 1 false
      = ⟨⟨["mp3"], [⟨1, "a.mp3", "mp3", 0, 10, false⟩, ⟨2, "b.xyz", "xyz", 0, 10, false⟩],
            0, PState.stopped, some "a.mp3"⟩,
          [Eff.stopChecker, Eff.decoderClose, Eff.decoderClose], false⟩ := by
  decide

/-- Claim C6 (amended): when a transition from the `Playing` state
targets a track in a different file whose extension has no registered
decoder factory, or whose file fails to open, the engine closes the
current decoder again (beyond the close already performed for leaving
the old file), marks the state `Stopped`, and then panics — the failure
is neither logged-and-absorbed nor returned, so the caller cannot simply
retry the next track. -/
theorem C6_open_failure (env : Env) (pt : PT) (pos0 : Int) (smooth : Bool)
    (track cur : Track) (d : String) (hst : pt.state = PState.playing)
    (hg : getTrack pt.plist (wrapPos pt.plist.length pos0) = some track)
    (hc : getTrack pt.plist pt.pos = some cur)
    (hfile : cur.file ≠ track.file) (hd : pt.decoder = some d) :
    (track.ext ∉ pt.decoders →
        play env pt pos0 smooth
          = ⟨{ pt with state := PState.stopped },
              [Eff.stopChecker, Eff.decoderClose, Eff.decoderClose], false⟩) ∧
      (track.ext ∈ pt.decoders → env.openOk track.file = false →
        play env pt pos0 smooth
          = ⟨{ pt with state := PState.stopped },
              [Eff.stopChecker, Eff.decoderClose, Eff.decoderOpen track.file,
                Eff.decoderClose], false⟩) := by
  have hsf : (cur.file == track.file) = false := by simp [hfile]
  constructor
  · intro hext
    rw [play_eq_playing env pt pos0 smooth track cur hst hg hc, hsf]
    simp [playCore, hst, hext, hd]
  · intro hext hopen
    rw [play_eq_playing env pt pos0 smooth track cur hst hg hc, hsf]
    simp [playCore, hst, hext, hopen, hd]

/-- Claim C6 witness: the failed-open case at a concrete input — the
factory exists but `Decoder.Open` fails, and the engine ends stopped and
panicked with the decoder closed twice. -/
theorem C6_open_failure_witness :
    play ⟨fun _ => false, true, 44100, 2, 44100, 2, 0, 4096⟩
        ⟨["mp3"], [⟨1, "a.mp3", "mp3", 0, 10, false⟩, ⟨2, "b.mp3", "mp3", 0, 10, false⟩],
          0, PState.playing, some "a.mp3"⟩ 1 false
      = ⟨⟨["mp3"], [⟨1, "a.mp3", "mp3", 0, 10, false⟩, ⟨2, "b.mp3", "mp3", 0, 10, false⟩],
            0, PState.stopped, some "a.mp3"⟩,
          [Eff.stopChecker, Eff.decoderClose, Eff.decoderOpen "b.mp3",
            Eff.decoderClose], false⟩ := by
  have h := (C6_open_failure ⟨fun _ => false, true, 44100, 2, 44100, 2, 0, 4096⟩
    ⟨["mp3"], [⟨1, "a.mp3", "mp3", 0, 10, false⟩, ⟨2, "b.mp3", "mp3", 0, 10, false⟩],
      0, PState.playing, some "a.mp3"⟩ 1 false
    ⟨2, "b.mp3", "mp3", 0, 10, false⟩ ⟨1, "a.mp3", "mp3", 0, 10, false⟩ "a.mp3"
    rfl (by decide) (by decide) (by decide) rfl).2 (by decide) rfl
  exact h

theorem findTrackFrom_neg (l : List Track) (cur : Track) (k : Int)
    (h : ∀ t ∈ l, t.id ≠ cur.id) : findTrackFrom k l cur = -1 := by
  induction l generalizing k with
  | nil => rfl
  | cons t ts ih =>
    simp only [findTrackFrom]
    rw [if_neg (h t (List.mem_cons_self t ts))]
    exact ih (k + 1) (fun u hu => h u (List.mem_cons_of_mem t hu))

theorem findTrackFrom_found (l : List Track) (cur : Track) (k : Int)
    (h : ∃ t ∈ l, t.id = cur.id) :
    ∃ j : Nat, j < l.length ∧ findTrackFrom k l cur = k + (j : Int) ∧
      (∃ t, l[j]? = some t ∧ t.id = cur.id) ∧
      ∀ i < j, ∀ u, l[i]? = some u → u.id ≠ cur.id := by
  induction l generalizing k with
  | nil => simp at h
  | cons t ts ih =>
    by_cases ht : t.id = cur.id
    · refine ⟨0, by simp, ?_, ⟨t, by simp, ht⟩, ?_⟩
      · simp [findTrackFrom, ht]
      · intro i hi
        omega
    · have h2 : ∃ u ∈ ts, u.id = cur.id := by
        rcases h with ⟨u, hu, hid⟩
        rcases List.mem_cons.mp hu with h1 | h1
        · exact absurd (h1 ▸ hid) ht
        · exact ⟨u, h1, hid⟩
      rcases ih (k + 1) h2 with ⟨j, hj, hfind, ⟨u, hu, hid⟩, hmin⟩
      refine ⟨j + 1, by simpa using Nat.succ_lt_succ hj, ?_,
        ⟨u, by simpa using hu, hid⟩, ?_⟩
      · simp only [findTrackFrom, if_neg ht]
        rw [hfind]
        push_cast
        ring
      · intro i hi v hv
        cases i with
        | zero =>
          simp only [List.getElem?_cons_zero, Option.some.injEq] at hv
          subst hv
          exact ht
        | succ i2 =>
          exact hmin i2 (by omega) v (by simpa using hv)

/-- Claim C5 counterexample: a `SetPlaylist` received while `Paused`
whose new list holds no pointer-identical current track object does not
transition the engine to `Stopped`: the `stop()` call at
playingthread.go:118 sends the shutdown handshake on the
`bufAvailable` channel that the pause transition already closed and
panics, leaving the state `Paused` — contradicting "if no identical
object exists in the new list, playback transitions to Stopped" for a
non-stopped state. -/
theorem C5_counterexample :
    step ⟨fun _ => true, true, 44100, 2, 44100, 2, 0, 0⟩
        ⟨["mp3"], [⟨5, "a.mp3", "mp3", 0, 10, false⟩], 0, PState.paused, some "a.mp3"⟩
        (Msg.mplist [⟨7, "b.mp3", "mp3", 0, 10, false⟩])
      = ⟨⟨["mp3"], [⟨7, "b.mp3", "mp3", 0, 10, false⟩], -1, PState.paused, some "a.mp3"⟩,
          [], false⟩ := by
  decide

/-- Claim C5 (amended): a `SetPlaylist` received while not stopped
relocates the position to the first index of the new list that holds
the pointer-identical current track object (object identity `id`, which
disambiguates equal-valued duplicates) and preserves the playback
state.  If no identical object exists in the new list: from the
`Playing` state the engine transitions to `Stopped`, but from the
`Paused` state the `stop()` call panics on the already-closed
buffer-availability channel, so the engine stays `Paused` and never
reaches `Stopped`. -/
theorem C5_setPlaylist_relocates (env : Env) (pt : PT) (l : List Track) (cur : Track)
    (hs : pt.state ≠ PState.stopped) (hd : pt.decoder.isSome = true)
    (hc : getTrack pt.plist pt.pos = some cur) :
    ((∃ t ∈ l, t.id = cur.id) →
        ∃ j : Nat, (step env pt (Msg.mplist l)).pt.pos = (j : Int) ∧
          (∃ t, l[j]? = some t ∧ t.id = cur.id) ∧
          (∀ i < j, ∀ u, l[i]? = some u → u.id ≠ cur.id) ∧
          (step env pt (Msg.mplist l)).pt.state = pt.state ∧
          (step env pt (Msg.mplist l)).pt.plist = l ∧
          (step env pt (Msg.mplist l)).ok = true) ∧
      ((∀ t ∈ l, t.id ≠ cur.id) → pt.state = PState.playing →
        (step env pt (Msg.mplist l)).pt.state = PState.stopped ∧
          (step env pt (Msg.mplist l)).ok = true) ∧
      ((∀ t ∈ l, t.id ≠ cur.id) → pt.state = PState.paused →
        (step env pt (Msg.mplist l)).pt.state = PState.paused ∧
          (step env pt (Msg.mplist l)).ok = false) := by
  have hsp : setPlaylist pt l = some { pt with pos := findTrackFrom 0 l cur, plist := l } := by
    unfold setPlaylist
    rw [if_pos hs, hc]
    rfl
  refine ⟨?_, ?_, ?_⟩
  · intro hex
    rcases findTrackFrom_found l cur 0 hex with ⟨j, hj, hfind, hhit, hmin⟩
    have hpos : findTrackFrom 0 l cur = (j : Int) := by
      rw [hfind]
      ring
    have hne : ((j : Int)) ≠ -1 := by omega
    refine ⟨j, ?_, hhit, hmin, ?_, ?_, ?_⟩ <;>
      simp [step, hsp, hpos, hne]
  · intro hnone hstp
    have hfind := findTrackFrom_neg l cur 0 hnone
    rcases Option.isSome_iff_exists.mp hd with ⟨d, hdd⟩
    constructor <;>
      simp [step, hsp, hfind, stop, hstp, hdd]
  · intro hnone hstp
    have hfind := findTrackFrom_neg l cur 0 hnone
    constructor <;>
      simp [step, hsp, hfind, stop, hstp]

/-- Claim C5 witness: the new list holds a value-equal duplicate (a
distinct object with the same fields) before the identical object; the
position relocates to the identical object's index 1, not 0, and the
state stays `Playing`. -/
theorem C5_setPlaylist_relocates_witness :
    (step ⟨fun _ => true, true, 44100, 2, 44100, 2, 0, 0⟩
        ⟨["mp3"], [⟨5, "a.mp3", "mp3", 0, 10, false⟩], 0, PState.playing, some "a.mp3"⟩
        (Msg.mplist [⟨7, "a.mp3", "mp3", 0, 10, false⟩,
          ⟨5, "a.mp3", "mp3", 0, 10, false⟩])).pt.pos = 1 ∧
      (step ⟨fun _ => true, true, 44100, 2, 44100, 2, 0, 0⟩
        ⟨["mp3"], [⟨5, "a.mp3", "mp3", 0, 10, false⟩], 0, PState.playing, some "a.mp3"⟩
        (Msg.mplist [⟨7, "a.mp3", "mp3", 0, 10, false⟩,
          ⟨5, "a.mp3", "mp3", 0, 10, false⟩])).pt.state = PState.playing := by
  have h := (C5_setPlaylist_relocates ⟨fun _ => true, true, 44100, 2, 44100, 2, 0, 0⟩
    ⟨["mp3"], [⟨5, "a.mp3", "mp3", 0, 10, false⟩], 0, PState.playing, some "a.mp3"⟩
    [⟨7, "a.mp3", "mp3", 0, 10, false⟩, ⟨5, "a.mp3", "mp3", 0, 10, false⟩]
    ⟨5, "a.mp3", "mp3", 0, 10, false⟩
    (by decide) rfl (by decide)).1
    ⟨⟨5, "a.mp3", "mp3", 0, 10, false⟩, by decide, rfl⟩
  rcases h with ⟨j, hj, ⟨t, ht, hid⟩, hmin, hstate, hplist, hok⟩
  have hj1 : j = 1 := by
    rcases Nat.lt_or_ge j 1 with h1 | h1
    · have hj0 : j = 0 := by omega
      subst hj0
      simp only [List.getElem?_cons_zero, Option.some.injEq] at ht
      subst ht
      exact absurd hid (by decide)
    · rcases Nat.lt_or_ge j 2 with h2 | h2
      · omega
      · exact absurd (by decide)
          (not_not.mpr (hmin 1 (by omega) ⟨5, "a.mp3", "mp3", 0, 10, false⟩ (by decide)))
  subst hj1
  exact ⟨hj, hstate⟩

end Engine

end Chub

namespace Chub

namespace Registry

/-- A named playlist of the facade-level registry (`player/player.go`).
The `system` flag marks the protected system playlist.  (`newPlaylist`
itself is not among the provided sources; per the spec it creates an
ordinary, non-system playlist with the given name.) -/
structure Playlist where
  name : String
  system : Bool
deriving DecidableEq

/-- Embedding of `Player.getPlaylistByName`: the first playlist with the given name. -/
def getPlaylistByName (ls : List Playlist) (name : String) : Option Playlist :=
  match ls with
  | [] => none
  | p :: ps => if p.name = name then some p else getPlaylistByName ps name

/-- Embedding of `Player.cmdPlaylistsAdd`: fails if the name exists, otherwise appends
a new (non-system) playlist. -/
def cmdPlaylistsAdd (ls : List Playlist) (name : String) : Except String (List Playlist) :=
  match getPlaylistByName ls name with
  | some _ => Except.error ("Playlist " ++ name ++ " already exists.")
  | none => Except.ok (ls ++ [⟨name, false⟩])

/-- Embedding of `Player.cmdPlaylistsDelete`: walks the registry front to back; any
element whose `system` flag is set aborts with an error before the name
is even compared; the first element matching the name is removed and the
walk stops; a walk falling off the end succeeds without a change. -/
def cmdPlaylistsDelete (ls : List Playlist) (name : String) : Except String (List Playlist) :=
  match ls with
  | [] => Except.ok []
  | p :: ps =>
    if p.system then Except.error "System playlist can't be deleted"
    else if p.name = name then Except.ok ps
    else
      match cmdPlaylistsDelete ps name with
      | Except.error e => Except.error e
      | Except.ok r => Except.ok (p :: r)

/-- One registry command of `Player.playingProcess`. -/
inductive PCmd
  | list
  | add (name : String)
  | delete (name : String)

/-- The response record written back to the command's response channel:
`err` mirrors `response.err`, `args` mirrors `response.arguments` (the
snapshot returned for the list command). -/
structure PResp where
  err : Option String
  args : Option (List Playlist)
deriving DecidableEq

/-- One iteration of `Player.playingProcess` (lines 75-94): the new
registry contents and the response.  Note that for the add command the
result of `cmdPlaylistsAdd` is discarded: `r.err` is never assigned. -/
def playingProcess (ls : List Playlist) : PCmd → List Playlist × PResp
  | PCmd.list => (ls, ⟨none, some ls⟩)
  | PCmd.add name =>
    match cmdPlaylistsAdd ls name with
    | Except.ok ls2 => (ls2, ⟨none, none⟩)
    | Except.error _ => (ls, ⟨none, none⟩)
  | PCmd.delete name =>
    match cmdPlaylistsDelete ls name with
    | Except.ok ls2 => (ls2, ⟨none, none⟩)
    | Except.error e => (ls, ⟨some e, none⟩)

/-- Claim C7 (code bug): with the registry holding the system playlist
followed by a user playlist, deleting the user playlist by name fails
with "System playlist can't be deleted" and leaves the registry
unchanged, although the claim (and the function's own documentation)
says exactly the named playlist is removed; and adding a playlist whose
name already exists leaves the registry unchanged but hands the caller
`err = none` — the error computed by `cmdPlaylistsAdd` is dropped by
`playingProcess`, so the caller never receives it. -/
theorem C7_registry_bugs :
    playingProcess [⟨"vfs", true⟩, ⟨"rock", false⟩] (PCmd.delete "rock")
        = ([⟨"vfs", true⟩, ⟨"rock", false⟩],
            ⟨some "System playlist can't be deleted", none⟩) ∧
      cmdPlaylistsAdd [⟨"rock", false⟩] "rock"
          = Except.error "Playlist rock already exists." ∧
      playingProcess [⟨"rock", false⟩] (PCmd.add "rock")
        = ([⟨"rock", false⟩], ⟨none, none⟩) ∧
      cmdPlaylistsDelete [⟨"rock", false⟩] "jazz" = Except.ok [⟨"rock", false⟩] := by
  refine ⟨?_, ?_, ?_, ?_⟩ <;> rfl

end Registry

end Chub

namespace Chub

namespace Server

/-- The client connection writer of the `server` package, modelled
line-wise: `lines` holds the completed output lines, `buf` the partial
current line (`clientHandler.write` appends to it, `writeLn` completes
it with the trailing newline). -/
structure Out where
  lines : List String
  buf : String
deriving DecidableEq

/-- Embedding of `clientHandler.write`. -/
def write (o : Out) (s : String) : Out := { o with buf := o.buf ++ s }

/-- Embedding of `clientHandler.writeLn`. -/
def writeLn (o : Out) (s : String) : Out := ⟨o.lines ++ [o.buf ++ s], ""⟩

/-- Embedding of `clientHandler.ok`: the success response header. -/
def ok (o : Out) : Out := writeLn o "OK"

/-- Embedding of `clientHandler.error`: the error response header. -/
def error (o : Out) : Out := writeLn o "ERR"

/-- Embedding of `clientHandler.eom`: the end-of-message marker (an empty line). -/
def eom (o : Out) : Out := writeLn o ""

/-- Embedding of `clientHandler.WriteError`: header, message line, marker. -/
def writeError (o : Out) (msg : String) : Out := eom (writeLn (error o) msg)

/-- Model of `strconv.Quote`: plain double-quoting (escaping of special
characters inside the payload elided — an external library function). -/
def quote (s : String) : String := "\"" ++ s ++ "\""

/-- One `vfs` entry returned by `Path.List`, carrying the fields the LS
handler prints. -/
inductive LsEntry
  | track (artist album title : String) (number length : Int)
  | directory (name path : String)

/-- The per-entry output of `clientHandler.cmdLs`. -/
def lsLine (o : Out) : LsEntry → Out
  | LsEntry.track artist album title number length =>
    writeLn (List.foldl write o
      ["Type: TRACK, ", "Artist: ", quote artist, ", ", "Album: ", quote album, ", ",
        "Title: ", quote title, ", ", "Number: ", toString number, ", ",
        "Length: ", toString length]) ""
  | LsEntry.directory name path =>
    writeLn (List.foldl write o
      ["Type: DIRECTORY, ", "Name: ", quote name, ", ", "Path: ", quote path]) ""

/-- The per-playlist output of `clientHandler.cmdPlaylists`. -/
def playlistLine (o : Out) (p : String × Nat) : Out :=
  writeLn (List.foldl write o ["Name: ", quote p.1, ", ", "Length: ", toString p.2]) ""

/-- One parsed client command together with the answers of the external
`player`/`vfs` collaborators consulted while handling it (`none` and
`Except.ok` model success). -/
inductive SrvCmd
  | add (res : Option String)
  | addPlaylist (res : Option String)
  | ls (res : Except String (List LsEntry))
  | ping
  | playlists (pls : List (String × Nat))
  | quit

/-- The dispatch body of `clientHandler.HandleCommand` (the per-command
handler, before the final `cl.eom()`). -/
def handleBody (o : Out) : SrvCmd → Out
  | SrvCmd.add res =>
    match res with
    | some e => writeError o e
    | none => ok o
  | SrvCmd.addPlaylist res =>
    match res with
    | some e => writeError o e
    | none => ok o
  | SrvCmd.ls res =>
    match res with
    | Except.error e => writeError o e
    | Except.ok entries => List.foldl lsLine (ok o) entries
  | SrvCmd.ping => ok o
  | SrvCmd.playlists pls => List.foldl playlistLine (ok o) pls
  | SrvCmd.quit => writeLn (ok o) "Bye."

/-- Embedding of `clientHandler.HandleCommand`: dispatch, then the end-of-message
marker; the response is everything written for the command starting from
an empty writer. -/
def handleCommand (c : SrvCmd) : Out := eom (handleBody ⟨[], ""⟩ c)

/-- A status line in the sense of the claim: `OK`, or `ERR` with a
message. -/
def isStatusLine (s : String) : Bool := s == "OK" || s.data.take 3 == ['E', 'R', 'R']

/-- The response shape the claim asserts: payload lines, then the status
line, then the blank terminator line at the very end. -/
def statusAtEnd (ls : List String) : Prop :=
  ∃ pre st, ls = pre ++ [st, ""] ∧ isStatusLine st = true

theorem foldl_write_lines (segs : List String) (o : Out) :
    (List.foldl write o segs).lines = o.lines := by
  induction segs generalizing o with
  | nil => rfl
  | cons s ss ih =>
    rw [List.foldl_cons, ih]
    rfl

theorem writeLn_foldl_write (o : Out) (segs : List String) (s : String) :
    ∃ t, writeLn (List.foldl write o segs) s = ⟨o.lines ++ [t], ""⟩ :=
  ⟨(List.foldl write o segs).buf ++ s, by rw [writeLn, foldl_write_lines]⟩

theorem lsLine_shape (o : Out) (e : LsEntry) :
    ∃ s, lsLine o e = ⟨o.lines ++ [s], ""⟩ := by
  cases e <;> exact writeLn_foldl_write o _ ""

theorem playlistLine_shape (o : Out) (p : String × Nat) :
    ∃ s, playlistLine o p = ⟨o.lines ++ [s], ""⟩ :=
  writeLn_foldl_write o _ ""

theorem foldl_lsLine_shape (es : List LsEntry) (o : Out) (hb : o.buf = "") :
    ∃ ext, List.foldl lsLine o es = ⟨o.lines ++ ext, ""⟩ := by
  induction es generalizing o with
  | nil =>
    exact ⟨[], by cases o with | mk l b => simp_all⟩
  | cons e es2 ih =>
    rcases lsLine_shape o e with ⟨s, hs⟩
    rcases ih (lsLine o e) (by rw [hs]) with ⟨ext, hext⟩
    refine ⟨[s] ++ ext, ?_⟩
    rw [List.foldl_cons, hext, hs]
    simp

theorem foldl_playlistLine_shape (ps : List (String × Nat)) (o : Out) (hb : o.buf = "") :
    ∃ ext, List.foldl playlistLine o ps = ⟨o.lines ++ ext, ""⟩ := by
  induction ps generalizing o with
  | nil =>
    exact ⟨[], by cases o with | mk l b => simp_all⟩
  | cons p ps2 ih =>
    rcases playlistLine_shape o p with ⟨s, hs⟩
    rcases ih (playlistLine o p) (by rw [hs]) with ⟨ext, hext⟩
    refine ⟨[s] ++ ext, ?_⟩
    rw [List.foldl_cons, hext, hs]
    simp

theorem handleBody_shape (c : SrvCmd) :
    ∃ rest, handleBody ⟨[], ""⟩ c = ⟨"OK" :: rest, ""⟩ ∨
      handleBody ⟨[], ""⟩ c = ⟨"ERR" :: rest, ""⟩ := by
  have hok : ok ⟨[], ""⟩ = ⟨["OK"], ""⟩ := rfl
  cases c with
  | add res =>
    cases res with
    | none => exact ⟨[], Or.inl rfl⟩
    | some e => exact ⟨[e, ""], Or.inr rfl⟩
  | addPlaylist res =>
    cases res with
    | none => exact ⟨[], Or.inl rfl⟩
    | some e => exact ⟨[e, ""], Or.inr rfl⟩
  | ls res =>
    cases res with
    | error e => exact ⟨[e, ""], Or.inr rfl⟩
    | ok entries =>
      rcases foldl_lsLine_shape entries (Server.ok ⟨[], ""⟩) rfl with ⟨ext, hext⟩
      exact ⟨ext, Or.inl (by rw [handleBody, hext, hok]; rfl)⟩
  | ping => exact ⟨[], Or.inl rfl⟩
  | playlists pls =>
    rcases foldl_playlistLine_shape pls (Server.ok ⟨[], ""⟩) rfl with ⟨ext, hext⟩
    exact ⟨ext, Or.inl (by rw [handleBody, hext, hok]; rfl)⟩
  | quit => exact ⟨["Bye."], Or.inl rfl⟩

/-- Claim C8 counterexample: the PLAYLISTS response with one playlist is
the lines `OK`, the payload line, then the blank terminator — the line
before the terminator is the payload, not a status line, so the status
line does not come at the end of the response after the payload. -/
theorem C8_counterexample :
    (handleCommand (SrvCmd.playlists [("a", 1)])).lines
        = ["OK", "Name: \"a\", Length: 1", ""] ∧
      ¬ statusAtEnd (handleCommand (SrvCmd.playlists [("a", 1)])).lines := by
  have hlines : (handleCommand (SrvCmd.playlists [("a", 1)])).lines
      = ["OK", "Name: \"a\", Length: 1", ""] := rfl
  refine ⟨hlines, ?_⟩
  rw [hlines]
  rintro ⟨pre, st, heq, hst⟩
  have hlen : pre.length = 1 := by
    have h3 := congrArg List.length heq
    simp at h3
    omega
  rcases pre with _ | ⟨a, pre2⟩
  · simp at hlen
  · rcases pre2 with _ | ⟨b, pre3⟩
    · simp only [List.cons_append, List.nil_append, List.cons.injEq] at heq
      rcases heq with ⟨-, hstq, -⟩
      rw [← hstq] at hst
      exact absurd hst (by decide)
    · simp at hlen

/-- Claim C8 (amended): every response `HandleCommand` writes begins
with a status line — `OK` on success, or `ERR` with the error message on
the following line — and ends with a blank-line terminator; payload
lines come between the status line and the terminator, not before the
status line. -/
theorem C8_status_first (c : SrvCmd) :
    ((handleCommand c).lines.head? = some "OK" ∨
        (handleCommand c).lines.head? = some "ERR") ∧
      (handleCommand c).lines.getLast? = some "" ∧
      (handleCommand c).buf = "" := by
  rcases handleBody_shape c with ⟨rest, h | h⟩ <;>
    · rw [handleCommand, h]
      refine ⟨?_, ?_, rfl⟩
      · simp [eom, writeLn]
      · show ((_ :: rest) ++ ["" ++ ""]).getLast? = some ""
        exact List.getLast?_concat _

end Server

end Chub

namespace Chub

namespace Cue

/-- An INDEX time stamp (minutes, seconds, frames). -/
structure CueTime where
  min : Nat
  sec : Nat
  frames : Nat
deriving DecidableEq

/-- An INDEX entry of a track. -/
structure CueIndex where
  number : Int
  time : CueTime
deriving DecidableEq

/-- Track data types accepted by the TRACK command. -/
inductive TrackDataType
  | audio
  | cdg
  | mode1_2048
  | mode1_2352
  | mode2_2336
  | mode2_2352
  | cdi_2336
  | cdi_2352
deriving DecidableEq

/-- Track flags accepted by the FLAGS command. -/
inductive TrackFlag
  | dcp
  | fourCh
  | pre
  | scms
deriving DecidableEq

/-- File types accepted by the FILE command. -/
inductive CueFileType
  | binary
  | motorola
  | aiff
  | wave
  | mp3
deriving DecidableEq

/-- One track of a cue-sheet file. -/
structure CueTrack where
  number : Int
  dataType : TrackDataType
  title : String
  performer : String
  songwriter : String
  isrc : String
  pregap : Option CueTime
  postgap : Option CueTime
  indexes : List CueIndex
  flags : List TrackFlag
  comments : List String
deriving DecidableEq

/-- One FILE section of a cue sheet. -/
structure CueFile where
  name : String
  ftype : CueFileType
  tracks : List CueTrack
deriving DecidableEq

/-- The parsed cue sheet.  `flags` are the parser flags passed to
`Parse` (bit 0 is `FlagTruncateStrings`). -/
structure Sheet where
  flags : Nat
  catalog : String
  cdTextFile : String
  performer : String
  songwriter : String
  title : String
  comments : List String
  files : List CueFile
deriving DecidableEq

/-- Modelled from the spec: `Sheet.stringTruncateMaybe` is not among the
provided sources; per the `FlagTruncateStrings` doc comment it truncates
the string to the given length when that parser flag is set. -/
def stringTruncateMaybe (sheet : Sheet) (s : String) (n : Nat) : String :=
  if sheet.flags % 2 = 1 then String.mk (s.data.take n) else s

/-- Embedding of `getCurrentFile`: the file started by the last FILE command. -/
def getCurrentFile (sheet : Sheet) : Option CueFile := sheet.files.getLast?

/-- Embedding of `getCurrentTrack`: the track started by the last TRACK command of
the current file. -/
def getCurrentTrack (sheet : Sheet) : Option CueTrack :=
  match getCurrentFile sheet with
  | none => none
  | some f => f.tracks.getLast?

/-- Replaces the current (last) track of the current (last) file; the Go
code mutates the same object through the pointer returned by
`getCurrentTrack`. -/
def setCurrentTrack (sheet : Sheet) (t : CueTrack) : Sheet :=
  match sheet.files.getLast? with
  | none => sheet
  | some f =>
    { sheet with files := sheet.files.dropLast ++ [{ f with tracks := f.tracks.dropLast ++ [t] }] }

/-- Replaces the current (last) file. -/
def setCurrentFile (sheet : Sheet) (f : CueFile) : Sheet :=
  { sheet with files := sheet.files.dropLast ++ [f] }

/-- Helper of `getFileLastIndex`: last index of the most recent track
having one, scanning tracks from the back. -/
def lastIndexRev : List CueTrack → Option CueIndex
  | [] => none
  | t :: ts =>
    match t.indexes.getLast? with
    | some i => some i
    | none => lastIndexRev ts

/-- Embedding of `getFileLastIndex`. -/
def getFileLastIndex (f : CueFile) : Option CueIndex := lastIndexRev f.tracks.reverse

/-- A nonempty all-digit string parsed as a natural number. -/
def digitsToNat (s : String) : Option Nat :=
  if s.length > 0 ∧ s.data.all (fun c => c.isDigit) then
    some (s.data.foldl (fun a c => a * 10 + (c.toNat - 48)) 0)
  else none

/-- Model of `strconv.Atoi` (external standard library): an optional
sign followed by decimal digits (range checking of the 64-bit
implementation elided; the inputs involved are small). -/
def atoi (s : String) : Except String Int :=
  match s.data with
  | '-' :: rest =>
    match digitsToNat (String.mk rest) with
    | some n => Except.ok (-(n : Int))
    | none => Except.error ("invalid syntax: " ++ s)
  | '+' :: rest =>
    match digitsToNat (String.mk rest) with
    | some n => Except.ok ((n : Int))
    | none => Except.error ("invalid syntax: " ++ s)
  | _ =>
    match digitsToNat s with
    | some n => Except.ok ((n : Int))
    | none => Except.error ("invalid syntax: " ++ s)

/-- Splitting a character list at a separator character. -/
def splitChars (sep : Char) : List Char → List (List Char)
  | [] => [[]]
  | c :: cs =>
    if c = sep then [] :: splitChars sep cs
    else
      match splitChars sep cs with
      | [] => [[c]]
      | p :: ps => (c :: p) :: ps

/-- Model of `strings.Split` on the colon separator. -/
def splitOnColon (s : String) : List String :=
  (splitChars ':' s.data).map String.mk

/-- Modelled from the spec: the `parseTime` helper is not among the
provided sources; the INDEX/PREGAP/POSTGAP time argument has the CUE
form `mm:ss:ff` — three colon-separated decimal fields (minutes,
seconds, frames). -/
def parseTime (s : String) : Except String (Nat × Nat × Nat) :=
  match splitOnColon s with
  | [m, se, fr] =>
    match digitsToNat m, digitsToNat se, digitsToNat fr with
    | some a, some b, some c => Except.ok (a, b, c)
    | _, _, _ => Except.error (s ++ " is not valid time.")
  | _ => Except.error (s ++ " is not valid time.")

end Cue

end Chub

namespace Chub

namespace Cue

/-- Character class of the catalog regexp: a decimal digit. -/
def isDigitChar (c : Char) : Bool := c.isDigit

/-- The CATALOG validity regexp: exactly 13 digits. -/
def isCatalogNumber (s : String) : Bool :=
  s.length = 13 && s.data.all isDigitChar

/-- Embedding of `parseCatalog`. -/
def parseCatalog (params : List String) (sheet : Sheet) : Except String Sheet :=
  let num := params.getD 0 ""
  if isCatalogNumber num then Except.ok { sheet with catalog := num }
  else Except.error (num ++ " is not valid catalog number.")

/-- Embedding of `parseCdTextFile`. -/
def parseCdTextFile (params : List String) (sheet : Sheet) : Except String Sheet :=
  Except.ok { sheet with cdTextFile := params.getD 0 "" }

/-- ASCII upper-casing of one character. -/
def asciiUpperChar (c : Char) : Char :=
  if 'a' ≤ c ∧ c ≤ 'z' then Char.ofNat (c.toNat - 32) else c

/-- ASCII upper-casing, as `strings.ToTitle` acts on ASCII input. -/
def asciiUpper (s : String) : String := String.mk (s.data.map asciiUpperChar)

/-- Embedding of `parseFileType` (the argument is upper-cased first, as
`strings.ToTitle` does for ASCII). -/
def parseFileType (t : String) : Except String CueFileType :=
  match asciiUpper t with
  | "BINARY" => Except.ok CueFileType.binary
  | "MOTOROLA" => Except.ok CueFileType.motorola
  | "AIFF" => Except.ok CueFileType.aiff
  | "WAVE" => Except.ok CueFileType.wave
  | "MP3" => Except.ok CueFileType.mp3
  | _ => Except.error ("Unsupported file type " ++ t ++ ".")

/-- Embedding of `parseFile`. -/
def parseFile (params : List String) (sheet : Sheet) : Except String Sheet :=
  match parseFileType (params.getD 1 "") with
  | Except.error e => Except.error e
  | Except.ok ft =>
    Except.ok { sheet with files := sheet.files ++ [⟨params.getD 0 "", ft, []⟩] }

/-- The per-flag lookup of `parseFlags`. -/
def parseTrackFlag (s : String) : Except String TrackFlag :=
  match s with
  | "DCP" => Except.ok TrackFlag.dcp
  | "4CH" => Except.ok TrackFlag.fourCh
  | "PRE" => Except.ok TrackFlag.pre
  | "SCMS" => Except.ok TrackFlag.scms
  | _ => Except.error ("Unsupported track flag " ++ s ++ ".")

/-- The flag loop of `parseFlags`. -/
def parseFlagsList : List String → List TrackFlag → Except String (List TrackFlag)
  | [], acc => Except.ok acc
  | f :: fs, acc =>
    match parseTrackFlag f with
    | Except.error e => Except.error e
    | Except.ok fl => parseFlagsList fs (acc ++ [fl])

/-- Embedding of `parseFlags`. -/
def parseFlags (params : List String) (sheet : Sheet) : Except String Sheet :=
  match getCurrentTrack sheet with
  | none => Except.error "TRACK command should appears before FLAGS command."
  | some track =>
    match parseFlagsList params track.flags with
    | Except.error e => Except.error e
    | Except.ok fl => Except.ok (setCurrentTrack sheet { track with flags := fl })

/-- Embedding of `parseIndex` (cue parser, lines 218-271): time and number are parsed
first, the number must lie in 0..99, a current track must exist, the
first index of a track must be numbered 0 or 1 and every further index
must be the successor of the previous one.  (The "first index of the
file should be 00:00:00" check only logs and has no effect on the
result.) -/
def parseIndex (params : List String) (sheet : Sheet) : Except String Sheet :=
  match parseTime (params.getD 1 "") with
  | Except.error e => Except.error e
  | Except.ok (mn, sc, fr) =>
    match atoi (params.getD 0 "") with
    | Except.error e => Except.error e
    | Except.ok number =>
      if number < 0 ∨ number > 99 then Except.error "Invalid index number value."
      else
        match getCurrentTrack sheet with
        | none => Except.error "TRACK command expected."
        | some track =>
          match track.indexes.getLast? with
          | none =>
            if number ≥ 2 then Except.error "0 or 1 index number expected."
            else
              Except.ok (setCurrentTrack sheet
                { track with indexes := track.indexes ++ [⟨number, ⟨mn, sc, fr⟩⟩] })
          | some lastIdx =>
            if lastIdx.number + 1 ≠ number then
              Except.error (toString (lastIdx.number + 1) ++ " index number expected.")
            else
              Except.ok (setCurrentTrack sheet
                { track with indexes := track.indexes ++ [⟨number, ⟨mn, sc, fr⟩⟩] })

/-- The ISRC validity regexp of `parseIsrc`: five characters of the
class `[0-9a-zA-z]` (sic — the Go pattern spans `A` to `z`, which also
admits the six ASCII punctuation characters between `Z` and `a`)
followed by seven digits. -/
def isIsrcChar (c : Char) : Bool := c.isDigit || ('A' ≤ c && c ≤ 'z')

/-- ISRC validity check. -/
def isIsrcNumber (s : String) : Bool :=
  s.length = 12 && (s.data.take 5).all isIsrcChar && (s.data.drop 5).all isDigitChar

/-- Embedding of `parseIsrc`. -/
def parseIsrc (params : List String) (sheet : Sheet) : Except String Sheet :=
  let isrc := params.getD 0 ""
  match getCurrentTrack sheet with
  | none => Except.error "TRACK command expected."
  | some track =>
    if track.indexes.length ≠ 0 then Except.error "ISRC command expected."
    else if isIsrcNumber isrc then Except.ok (setCurrentTrack sheet { track with isrc := isrc })
    else Except.error (isrc ++ " is not valid ISRC number.")

/-- Embedding of `parsePerformer`. -/
def parsePerformer (params : List String) (sheet : Sheet) : Except String Sheet :=
  let performer := stringTruncateMaybe sheet (params.getD 0 "") 80
  match getCurrentTrack sheet with
  | none => Except.ok { sheet with performer := performer }
  | some track => Except.ok (setCurrentTrack sheet { track with performer := performer })

/-- Embedding of `parsePostgap`. -/
def parsePostgap (params : List String) (sheet : Sheet) : Except String Sheet :=
  match getCurrentTrack sheet with
  | none => Except.error "TRACK command expected."
  | some track =>
    match parseTime (params.getD 0 "") with
    | Except.error e => Except.error e
    | Except.ok (mn, sc, fr) =>
      Except.ok (setCurrentTrack sheet { track with postgap := some ⟨mn, sc, fr⟩ })

/-- Embedding of `parsePregap`. -/
def parsePregap (params : List String) (sheet : Sheet) : Except String Sheet :=
  match getCurrentTrack sheet with
  | none => Except.error "TRACK command expected."
  | some track =>
    if track.indexes.length ≠ 0 then Except.error "Unexpected PREGAP command."
    else
      match parseTime (params.getD 0 "") with
      | Except.error e => Except.error e
      | Except.ok (mn, sc, fr) =>
        Except.ok (setCurrentTrack sheet { track with pregap := some ⟨mn, sc, fr⟩ })

/-- Model of `strings.Join` with a single-space separator. -/
def joinSpace : List String → String
  | [] => ""
  | [s] => s
  | s :: ss => s ++ " " ++ joinSpace ss

/-- Embedding of `parseRem`. -/
def parseRem (params : List String) (sheet : Sheet) : Except String Sheet :=
  let comment := joinSpace params
  match getCurrentTrack sheet with
  | none => Except.ok { sheet with comments := sheet.comments ++ [comment] }
  | some track =>
    Except.ok (setCurrentTrack sheet { track with comments := track.comments ++ [comment] })

/-- Embedding of `parseSongWriter`. -/
def parseSongWriter (params : List String) (sheet : Sheet) : Except String Sheet :=
  let songwriter := stringTruncateMaybe sheet (params.getD 0 "") 80
  match getCurrentTrack sheet with
  | none => Except.ok { sheet with songwriter := songwriter }
  | some track => Except.ok (setCurrentTrack sheet { track with songwriter := songwriter })

/-- Embedding of `parseTitle`. -/
def parseTitle (params : List String) (sheet : Sheet) : Except String Sheet :=
  let title := stringTruncateMaybe sheet (params.getD 0 "") 80
  match getCurrentTrack sheet with
  | none => Except.ok { sheet with title := title }
  | some track => Except.ok (setCurrentTrack sheet { track with title := title })

/-- The data-type lookup of `parseTrack`. -/
def parseDataType (t : String) : Except String TrackDataType :=
  match t with
  | "AUDIO" => Except.ok TrackDataType.audio
  | "CDG" => Except.ok TrackDataType.cdg
  | "MODE1/2048" => Except.ok TrackDataType.mode1_2048
  | "MODE1/2352" => Except.ok TrackDataType.mode1_2352
  | "MODE2/2336" => Except.ok TrackDataType.mode2_2336
  | "MODE2/2352" => Except.ok TrackDataType.mode2_2352
  | "CDI/2336" => Except.ok TrackDataType.cdi_2336
  | "CDI/2352" => Except.ok TrackDataType.cdi_2352
  | _ => Except.error ("Unsupported track datatype " ++ t ++ ".")

/-- Embedding of `parseTrack`. -/
def parseTrack (params : List String) (sheet : Sheet) : Except String Sheet :=
  match sheet.files.getLast? with
  | none => Except.error "Unexpected TRACK command."
  | some file =>
    match atoi (params.getD 0 "") with
    | Except.error e => Except.error e
    | Except.ok number =>
      if number < 1 then Except.error "Bad track number value."
      else
        match parseDataType (params.getD 1 "") with
        | Except.error e => Except.error e
        | Except.ok dataType =>
          let track : CueTrack := ⟨number, dataType, "", "", "", "", none, none, [], [], []⟩
          match file.tracks.getLast? with
          | some lastTrack =>
            if lastTrack.number ≠ number - 1 then
              Except.error ("Expected track number " ++ toString (number - 1) ++ ".")
            else
              Except.ok (setCurrentFile sheet { file with tracks := file.tracks ++ [track] })
          | none =>
            Except.ok (setCurrentFile sheet { file with tracks := file.tracks ++ [track] })

end Cue

end Chub

namespace Chub

namespace Cue

/-- One input line of a cue sheet after lexing: the command word and its
parameter list.  (The line lexer `parseCommand` is not among the
provided sources, so `Parse` is modelled over its output.) -/
structure CmdLine where
  cmd : String
  params : List String
deriving DecidableEq

/-- The `parsersMap` table: expected parameter count (`-1` for
variadic) and parser per command. -/
def parserFor (cmd : String) : Option (Int × (List String → Sheet → Except String Sheet)) :=
  match cmd with
  | "CATALOG" => some (1, parseCatalog)
  | "CDTEXTFILE" => some (1, parseCdTextFile)
  | "FILE" => some (2, parseFile)
  | "FLAGS" => some (-1, parseFlags)
  | "INDEX" => some (2, parseIndex)
  | "ISRC" => some (1, parseIsrc)
  | "PERFORMER" => some (1, parsePerformer)
  | "POSTGAP" => some (1, parsePostgap)
  | "PREGAP" => some (1, parsePregap)
  | "REM" => some (-1, parseRem)
  | "SONGWRITER" => some (1, parseSongWriter)
  | "TITLE" => some (1, parseTitle)
  | "TRACK" => some (2, parseTrack)
  | _ => none

/-- The loop body of `Parse` for one nonempty line (lines 98-119):
unknown commands and parameter-count mismatches are errors, otherwise
the command's parser runs. -/
def parseStep (sheet : Sheet) (l : CmdLine) : Except String Sheet :=
  match parserFor l.cmd with
  | none => Except.error ("Unknown command " ++ l.cmd ++ ".")
  | some (cnt, p) =>
    if cnt ≠ -1 ∧ cnt ≠ (l.params.length : Int) then
      Except.error ("Command " ++ l.cmd ++ " wrong params count.")
    else p l.params sheet

/-- The loop of `Parse`: the first error aborts the parse. -/
def parseLines : Sheet → List CmdLine → Except String Sheet
  | s, [] => Except.ok s
  | s, l :: ls =>
    match parseStep s l with
    | Except.error e => Except.error e
    | Except.ok s2 => parseLines s2 ls

/-- The empty sheet `Parse` starts from. -/
def initSheet (flags : Nat) : Sheet := ⟨flags, "", "", "", "", "", [], []⟩

/-- Embedding of `Parse` over pre-lexed lines. -/
def Parse (ls : List CmdLine) (flags : Nat) : Except String Sheet :=
  parseLines (initSheet flags) ls

theorem parseLines_append (s : Sheet) (xs ys : List CmdLine) :
    parseLines s (xs ++ ys)
      = match parseLines s xs with
        | Except.error e => Except.error e
        | Except.ok s2 => parseLines s2 ys := by
  induction xs generalizing s with
  | nil => simp [parseLines]
  | cons x xs2 ih =>
    rw [List.cons_append]
    simp only [parseLines]
    cases parseStep s x with
    | error e => rfl
    | ok s2 => exact ih s2

theorem getLast?_mem_list {α : Type} (l : List α) (a : α) (h : l.getLast? = some a) :
    a ∈ l := by
  rcases List.mem_getLast?_eq_getLast (Option.mem_def.mpr h) with ⟨hne, heq⟩
  rw [heq]
  exact List.getLast_mem hne

theorem getCurrentTrack_of_trackless (s : Sheet)
    (hP : ∀ f ∈ s.files, f.tracks = []) : getCurrentTrack s = none := by
  unfold getCurrentTrack getCurrentFile
  cases hl : s.files.getLast? with
  | none => rfl
  | some f =>
    simp only [hP f (getLast?_mem_list _ _ hl)]
    rfl

theorem trackless_parseCatalog (s s2 : Sheet) (ps : List String)
    (hP : ∀ f ∈ s.files, f.tracks = [])
    (h : parseCatalog ps s = Except.ok s2) : ∀ f ∈ s2.files, f.tracks = [] := by
  simp only [parseCatalog] at h
  split at h
  · cases h
    simpa using hP
  · cases h

theorem trackless_parseCdTextFile (s s2 : Sheet) (ps : List String)
    (hP : ∀ f ∈ s.files, f.tracks = [])
    (h : parseCdTextFile ps s = Except.ok s2) : ∀ f ∈ s2.files, f.tracks = [] := by
  unfold parseCdTextFile at h
  cases h
  simpa using hP

theorem trackless_parseFile (s s2 : Sheet) (ps : List String)
    (hP : ∀ f ∈ s.files, f.tracks = [])
    (h : parseFile ps s = Except.ok s2) : ∀ f ∈ s2.files, f.tracks = [] := by
  unfold parseFile at h
  cases hft : parseFileType (ps.getD 1 "") with
  | error e =>
    rw [hft] at h
    cases h
  | ok ft =>
    rw [hft] at h
    cases h
    intro f hf
    rcases List.mem_append.mp hf with h1 | h1
    · exact hP f h1
    · simp [List.mem_singleton.mp h1]

theorem trackless_parseFlags (s s2 : Sheet) (ps : List String)
    (htrack : getCurrentTrack s = none)
    (h : parseFlags ps s = Except.ok s2) : False := by
  unfold parseFlags at h
  rw [htrack] at h
  cases h

theorem trackless_parseIsrc (s s2 : Sheet) (ps : List String)
    (htrack : getCurrentTrack s = none)
    (h : parseIsrc ps s = Except.ok s2) : False := by
  unfold parseIsrc at h
  rw [htrack] at h
  cases h

theorem trackless_parsePostgap (s s2 : Sheet) (ps : List String)
    (htrack : getCurrentTrack s = none)
    (h : parsePostgap ps s = Except.ok s2) : False := by
  unfold parsePostgap at h
  rw [htrack] at h
  cases h

theorem trackless_parsePregap (s s2 : Sheet) (ps : List String)
    (htrack : getCurrentTrack s = none)
    (h : parsePregap ps s = Except.ok s2) : False := by
  unfold parsePregap at h
  rw [htrack] at h
  cases h

theorem trackless_parseIndex (s s2 : Sheet) (ps : List String)
    (htrack : getCurrentTrack s = none)
    (h : parseIndex ps s = Except.ok s2) : False := by
  unfold parseIndex at h
  cases hpt : parseTime (ps.getD 1 "") with
  | error e =>
    rw [hpt] at h
    simp at h
  | ok t =>
    obtain ⟨mn, sc, fr⟩ := t
    rw [hpt] at h
    cases hai : atoi (ps.getD 0 "") with
    | error e =>
      rw [hai] at h
      simp at h
    | ok n =>
      rw [hai] at h
      by_cases hrange : n < 0 ∨ n > 99
      · simp [hrange] at h
      · simp [hrange, htrack] at h

theorem trackless_parsePerformer (s s2 : Sheet) (ps : List String)
    (hP : ∀ f ∈ s.files, f.tracks = []) (htrack : getCurrentTrack s = none)
    (h : parsePerformer ps s = Except.ok s2) : ∀ f ∈ s2.files, f.tracks = [] := by
  unfold parsePerformer at h
  rw [htrack] at h
  cases h
  simpa using hP

theorem trackless_parseRem (s s2 : Sheet) (ps : List String)
    (hP : ∀ f ∈ s.files, f.tracks = []) (htrack : getCurrentTrack s = none)
    (h : parseRem ps s = Except.ok s2) : ∀ f ∈ s2.files, f.tracks = [] := by
  unfold parseRem at h
  rw [htrack] at h
  cases h
  simpa using hP

theorem trackless_parseSongWriter (s s2 : Sheet) (ps : List String)
    (hP : ∀ f ∈ s.files, f.tracks = []) (htrack : getCurrentTrack s = none)
    (h : parseSongWriter ps s = Except.ok s2) : ∀ f ∈ s2.files, f.tracks = [] := by
  unfold parseSongWriter at h
  rw [htrack] at h
  cases h
  simpa using hP

theorem trackless_parseTitle (s s2 : Sheet) (ps : List String)
    (hP : ∀ f ∈ s.files, f.tracks = []) (htrack : getCurrentTrack s = none)
    (h : parseTitle ps s = Except.ok s2) : ∀ f ∈ s2.files, f.tracks = [] := by
  unfold parseTitle at h
  rw [htrack] at h
  cases h
  simpa using hP

theorem parseStep_trackless (s s2 : Sheet) (l : CmdLine) (hcmd : l.cmd ≠ "TRACK")
    (hP : ∀ f ∈ s.files, f.tracks = [])
    (h : parseStep s l = Except.ok s2) : ∀ f ∈ s2.files, f.tracks = [] := by
  have htrack := getCurrentTrack_of_trackless s hP
  unfold parseStep at h
  rcases hpf : parserFor l.cmd with _ | ⟨cnt, p⟩
  · rw [hpf] at h
    cases h
  · simp only [hpf] at h
    by_cases hcnt : cnt ≠ -1 ∧ cnt ≠ (l.params.length : Int)
    · rw [if_pos hcnt] at h
      cases h
    · rw [if_neg hcnt] at h
      unfold parserFor at hpf
      split at hpf
      · cases hpf
        exact trackless_parseCatalog s s2 l.params hP h
      · cases hpf
        exact trackless_parseCdTextFile s s2 l.params hP h
      · cases hpf
        exact trackless_parseFile s s2 l.params hP h
      · cases hpf
        exact absurd h (fun hh => trackless_parseFlags s s2 l.params htrack hh)
      · cases hpf
        exact absurd h (fun hh => trackless_parseIndex s s2 l.params htrack hh)
      · cases hpf
        exact absurd h (fun hh => trackless_parseIsrc s s2 l.params htrack hh)
      · cases hpf
        exact trackless_parsePerformer s s2 l.params hP htrack h
      · cases hpf
        exact absurd h (fun hh => trackless_parsePostgap s s2 l.params htrack hh)
      · cases hpf
        exact absurd h (fun hh => trackless_parsePregap s s2 l.params htrack hh)
      · cases hpf
        exact trackless_parseRem s s2 l.params hP htrack h
      · cases hpf
        exact trackless_parseSongWriter s s2 l.params hP htrack h
      · cases hpf
        exact trackless_parseTitle s s2 l.params hP htrack h
      · cases hpf
        exact absurd (by assumption) hcmd
      · cases hpf

/-- Decidable equality of parse results, for evaluating `Parse` on
concrete inputs. -/
def exceptDecEqFun {α β : Type} [DecidableEq α] [DecidableEq β] :
    (a b : Except α β) → Decidable (a = b)
  | Except.error x, Except.error y =>
    if h : x = y then Decidable.isTrue (by rw [h])
    else Decidable.isFalse (fun hq => h (by cases hq; rfl))
  | Except.error x, Except.ok y => Decidable.isFalse (fun hq => Except.noConfusion hq)
  | Except.ok x, Except.error y => Decidable.isFalse (fun hq => Except.noConfusion hq)
  | Except.ok x, Except.ok y =>
    if h : x = y then Decidable.isTrue (by rw [h])
    else Decidable.isFalse (fun hq => h (by cases hq; rfl))

instance {α β : Type} [DecidableEq α] [DecidableEq β] : DecidableEq (Except α β) :=
  exceptDecEqFun

theorem parseLines_trackless (xs : List CmdLine) (s s2 : Sheet)
    (hcmd : ∀ l ∈ xs, l.cmd ≠ "TRACK")
    (hP : ∀ f ∈ s.files, f.tracks = [])
    (h : parseLines s xs = Except.ok s2) : ∀ f ∈ s2.files, f.tracks = [] := by
  induction xs generalizing s with
  | nil =>
    simp only [parseLines] at h
    cases h
    exact hP
  | cons x xs2 ih =>
    simp only [parseLines] at h
    cases hps : parseStep s x with
    | error e =>
      rw [hps] at h
      cases h
    | ok s3 =>
      rw [hps] at h
      exact ih s3 (fun l hl => hcmd l (List.mem_cons_of_mem x hl))
        (parseStep_trackless s s3 x (hcmd x (List.mem_cons_self x xs2)) hP hps) h

theorem parseIndex_rejects (ps : List String) (s : Sheet) :
    (getCurrentTrack s = none → ∃ e, parseIndex ps s = Except.error e) ∧
      (∀ n : Int, atoi (ps.getD 0 "") = Except.ok n → (n < 0 ∨ n > 99) →
        ∃ e, parseIndex ps s = Except.error e) ∧
      (∀ (t : CueTrack) (n : Int), getCurrentTrack s = some t → t.indexes = [] →
        atoi (ps.getD 0 "") = Except.ok n → n ≥ 2 →
        ∃ e, parseIndex ps s = Except.error e) ∧
      (∀ (t : CueTrack) (li : CueIndex) (n : Int), getCurrentTrack s = some t →
        t.indexes.getLast? = some li →
        atoi (ps.getD 0 "") = Except.ok n → li.number + 1 ≠ n →
        ∃ e, parseIndex ps s = Except.error e) := by
  cases hpt : parseTime (ps.getD 1 "") with
  | error e =>
    refine ⟨fun _ => ⟨e, ?_⟩, fun n _ _ => ⟨e, ?_⟩, fun t n _ _ _ _ => ⟨e, ?_⟩,
      fun t li n _ _ _ _ => ⟨e, ?_⟩⟩ <;>
      · unfold parseIndex
        rw [hpt]
  | ok tt =>
    obtain ⟨mn, sc, fr⟩ := tt
    refine ⟨?_, ?_, ?_, ?_⟩
    · intro htrack
      cases hai : atoi (ps.getD 0 "") with
      | error e =>
        exact ⟨e, by unfold parseIndex; simp only [hpt, hai]⟩
      | ok n =>
        by_cases hrange : n < 0 ∨ n > 99
        · exact ⟨_, by unfold parseIndex; simp only [hpt, hai]; rw [if_pos hrange]⟩
        · exact ⟨_, by unfold parseIndex; simp only [hpt, hai, if_neg hrange, htrack]; rfl⟩
    · intro n hai hrange
      exact ⟨_, by unfold parseIndex; simp only [hpt, hai]; rw [if_pos hrange]⟩
    · intro t n htrack hidx hai hge
      by_cases hrange : n < 0 ∨ n > 99
      · exact ⟨_, by unfold parseIndex; simp only [hpt, hai]; rw [if_pos hrange]⟩
      · refine ⟨"0 or 1 index number expected.", ?_⟩
        unfold parseIndex
        simp only [hpt, hai, if_neg hrange, htrack, hidx]
        rw [if_pos hge]
        rfl
    · intro t li n htrack hlast hai hne
      by_cases hrange : n < 0 ∨ n > 99
      · exact ⟨_, by unfold parseIndex; simp only [hpt, hai]; rw [if_pos hrange]⟩
      · refine ⟨toString (li.number + 1) ++ " index number expected.", ?_⟩
        unfold parseIndex
        simp only [hpt, hai, if_neg hrange, htrack, hlast]
        rw [if_pos hne]

/-- Claim C10: `Parse` returns an error (and no sheet) when an INDEX
command appears before any TRACK command, when the (well-parsed) index
number lies outside 0..99, when the first index of a track is numbered
2 or more, or when a further index is not the successor of the previous
index number of that track. -/
theorem C10_index_rules (flags : Nat) (pre rest : List CmdLine)
    (params : List String) (s : Sheet)
    (hpre : Parse pre flags = Except.ok s)
    (hbad :
      (∀ l ∈ pre, l.cmd ≠ "TRACK") ∨
        (∃ n : Int, atoi (params.getD 0 "") = Except.ok n ∧ (n < 0 ∨ n > 99)) ∨
        (∃ (t : CueTrack) (n : Int), getCurrentTrack s = some t ∧ t.indexes = [] ∧
          atoi (params.getD 0 "") = Except.ok n ∧ n ≥ 2) ∨
        (∃ (t : CueTrack) (li : CueIndex) (n : Int), getCurrentTrack s = some t ∧
          t.indexes.getLast? = some li ∧
          atoi (params.getD 0 "") = Except.ok n ∧ li.number + 1 ≠ n)) :
    ∃ e, Parse (pre ++ CmdLine.mk "INDEX" params :: rest) flags = Except.error e := by
  have herr : ∃ e, parseIndex params s = Except.error e := by
    have hrej := parseIndex_rejects params s
    rcases hbad with hb | ⟨n, hai, hr⟩ | ⟨t, n, ht, hi, hai, hge⟩ | ⟨t, li, n, ht, hl, hai, hne⟩
    · have hP : ∀ f ∈ s.files, f.tracks = [] := by
        apply parseLines_trackless pre (initSheet flags) s hb ?_ hpre
        intro f hf
        simp [initSheet] at hf
      exact hrej.1 (getCurrentTrack_of_trackless s hP)
    · exact hrej.2.1 n hai hr
    · exact hrej.2.2.1 t n ht hi hai hge
    · exact hrej.2.2.2 t li n ht hl hai hne
  have hps : parseStep s (CmdLine.mk "INDEX" params)
      = if (2 : Int) ≠ -1 ∧ (2 : Int) ≠ (params.length : Int) then
          Except.error ("Command " ++ "INDEX" ++ " wrong params count.")
        else parseIndex params s := rfl
  have hstep : ∃ e, parseStep s (CmdLine.mk "INDEX" params) = Except.error e := by
    by_cases hlen : (2 : Int) ≠ -1 ∧ (2 : Int) ≠ (params.length : Int)
    · exact ⟨_, by rw [hps, if_pos hlen]⟩
    · rcases herr with ⟨e, he⟩
      exact ⟨e, by rw [hps, if_neg hlen]; exact he⟩
  rcases hstep with ⟨e, he⟩
  refine ⟨e, ?_⟩
  unfold Parse at hpre ⊢
  rw [parseLines_append, hpre]
  simp only [parseLines]
  rw [he]

/-- Claim C10 witness: a cue sheet whose INDEX command arrives right
after the FILE command, before any TRACK command, is rejected. -/
theorem C10_index_rules_witness :
    ∃ e, Parse [CmdLine.mk "FILE" ["f.wav", "WAVE"],
        CmdLine.mk "INDEX" ["01", "00:00:00"]] 0 = Except.error e := by
  have h := C10_index_rules 0 [CmdLine.mk "FILE" ["f.wav", "WAVE"]] []
    ["01", "00:00:00"] ⟨0, "", "", "", "", "", [], [⟨"f.wav", CueFileType.wave, []⟩]⟩
    (by decide) (Or.inl (by decide))
  simpa using h
